import Mathlib

/-!
# Shallow embedding of `programs/lp-program/src/lib.rs`

The program is an escrow-backed job marketplace written against the Anchor
framework.  We embed it as a transition system over an explicit `State`:

* account addresses (`Pubkey`) are modelled as `Nat`;
* the persisted account types `UserAccount`, `JobPost`, `Application` are
  copied field-for-field from the `#[account]` structs in the source;
* each instruction handler becomes a pure function
  `... → State → Except Err State`.  The hosting runtime executes one
  instruction atomically: a failure anywhere (an Anchor account constraint,
  a `require!`, or a CPI `system_program::transfer`) aborts the whole
  transaction, so the failure branches return no state and `execOp` keeps
  the pre-state on error.
* Anchor `init` account constraints run before the handler body; they fail
  when the account already exists (`Err.accountAlreadyInUse`).  Accounts the
  context deserializes must exist (`Err.accountNotFound`).  A CPI transfer
  with insufficient source lamports aborts with `Err.transferFailed`.
  Lamport amounts are `Nat`; rent bookkeeping is outside the model.
* only the `RegisterUser` context binds `user_account` to the signer (seeds
  `[b"user", signer.key()]`); register_user therefore stores the record at
  the signer address with `wallet = signer`.  Every other accounts struct
  declares `user_account: Account<UserAccount>` with no seeds, has_one or
  address constraint, so the handlers receive a caller-chosen user account:
  they take its address `userAddr` separately from `signer`, and no handler
  body ever compares the signer against anything.
-/

abbrev Pubkey := Nat

inductive UserRole
  | Client
  | Freelancer
deriving DecidableEq

structure UserAccount where
  wallet : Pubkey
  name : String
  role : UserRole
deriving DecidableEq

structure JobPost where
  client : Pubkey
  title : String
  amount : Nat
  description : String
  is_filled : Bool
  escrow_bump : Nat
  start_date : Int
  end_date : Int
deriving DecidableEq

structure Application where
  applicant : Pubkey
  job_post : Pubkey
  resume_link : String
  approved : Bool
  completed : Bool
  submission_link : String
  narration : String
  client_review : String
  expected_end_date : Int
deriving DecidableEq

/-- The `#[error_code]` enum of the source, verbatim. -/
inductive ErrorCode
  | Unauthorized
  | JobAlreadyFilled
  | ApplicationNotApproved
  | WorkNotCompleted
  | InvalidDates
deriving DecidableEq

/-- Failures an instruction can surface: one of the error
codes of the program itself, or a failure of the surrounding machinery (Anchor account
deserialization / `init` constraints, or a CPI transfer). -/
inductive Err
  | program : ErrorCode → Err
  | accountNotFound : Err
  | accountAlreadyInUse : Err
  | transferFailed : Err
deriving DecidableEq

/-- Persisted on-chain state touched by the program.  `escrow a` is the
lamport balance of the escrow PDA derived from job-post address `a`
(seeds `[b"escrow", job_post.key()]`); `balances w` is the spendable
lamport balance of wallet `w`. -/
structure State where
  users : Pubkey → Option UserAccount
  jobs : Pubkey → Option JobPost
  apps : Pubkey → Option Application
  escrow : Pubkey → Nat
  balances : Pubkey → Nat

def upd {α : Type} (f : Pubkey → α) (k : Pubkey) (v : α) : Pubkey → α :=
  fun x => if x = k then v else f x

/-- Handler `register_user`: creates the identity record of the caller.  The account is
an `init` PDA keyed by the signer, so re-registration fails. -/
def register_user (signer : Pubkey) (name : String) (role : UserRole)
    (s : State) : Except Err State :=
  match s.users signer with
  | some _ => .error .accountAlreadyInUse
  | none =>
      .ok { s with users := upd s.users signer (some ⟨signer, name, role⟩) }

/-- Handler `initialize_job_post`: role gate, date validation, job-post creation and
deposit of `amount` into the escrow PDA of the job.  `now` is
`Clock::get()?.unix_timestamp` at execution time.  The job-post account is
an `init` PDA (seeds `[b"job_post", signer, title]`), modelled by a fresh
address `jobAddr`.  The `user_account` at `userAddr` is caller-chosen and
unconstrained; the role check and `job_post.client` read it, while the
deposit is paid by the signer. -/
def initialize_job_post (signer userAddr jobAddr : Pubkey)
    (title description : String) (amount : Nat)
    (start_date end_date now : Int) (s : State) : Except Err State :=
  match s.users userAddr with
  | none => .error .accountNotFound
  | some user =>
      match s.jobs jobAddr with
      | some _ => .error .accountAlreadyInUse
      | none =>
          if user.role ≠ UserRole.Client then
            .error (.program .Unauthorized)
          else if ¬ (start_date ≤ end_date) then
            .error (.program .InvalidDates)
          else if ¬ (start_date ≥ now) then
            .error (.program .InvalidDates)
          else if amount ≤ s.balances signer then
            .ok { s with
              jobs := upd s.jobs jobAddr
                (some ⟨user.wallet, title, amount, description, false, 0,
                       start_date, end_date⟩),
              balances := upd s.balances signer (s.balances signer - amount),
              escrow := upd s.escrow jobAddr (s.escrow jobAddr + amount) }
          else .error .transferFailed

/-- Handler `apply_to_job`: role gate, `expected_end_date` validation, creation of
the application record.  The application account is an `init` PDA (seeds
`[b"application", job_post, signer]`), modelled by a fresh address
`appAddr`; the job-post account must exist to be deserialized.  The
`user_account` at `userAddr` is caller-chosen and unconstrained; the role
check and `application.applicant` read it. -/
def apply_to_job (signer userAddr jobAddr appAddr : Pubkey)
    (resume_link : String) (expected_end_date : Int)
    (s : State) : Except Err State :=
  match s.users userAddr with
  | none => .error .accountNotFound
  | some user =>
      match s.jobs jobAddr with
      | none => .error .accountNotFound
      | some _ =>
          match s.apps appAddr with
          | some _ => .error .accountAlreadyInUse
          | none =>
              if user.role ≠ UserRole.Freelancer then
                .error (.program .Unauthorized)
              else if ¬ (expected_end_date ≥ 0) then
                .error (.program .InvalidDates)
              else
                .ok { s with
                  apps := upd s.apps appAddr
                    (some ⟨user.wallet, jobAddr, resume_link, false, false,
                           "", "", "", expected_end_date⟩) }

/-- Handler `approve_application`: approves the application at `appAddr`
against the job at `jobAddr`.  Exactly as in the `ApproveApplication`
accounts struct, nothing requires `application.job_post = jobAddr`, the
`user_account` at `userAddr` is caller-chosen, and the handler body never
reads the signer. -/
def approve_application (signer userAddr jobAddr appAddr : Pubkey)
    (s : State) : Except Err State :=
  match s.users userAddr with
  | none => .error .accountNotFound
  | some user =>
      match s.jobs jobAddr with
      | none => .error .accountNotFound
      | some job =>
          match s.apps appAddr with
          | none => .error .accountNotFound
          | some app =>
              if job.client ≠ user.wallet then
                .error (.program .Unauthorized)
              else if user.role ≠ UserRole.Client then
                .error (.program .Unauthorized)
              else if job.is_filled then
                .error (.program .JobAlreadyFilled)
              else
                .ok { s with
                  apps := upd s.apps appAddr (some { app with approved := true }),
                  jobs := upd s.jobs jobAddr (some { job with is_filled := true }) }

/-- Handler `submit_work`: records a submission on the application.  The
`SubmitWork` context also carries a `job_post` account, but the handler
body never reads it, so it does not appear here; the `user_account` at
`userAddr` is caller-chosen and the body never reads the signer. -/
def submit_work (signer userAddr appAddr : Pubkey)
    (submission_link narration : String) (s : State) : Except Err State :=
  match s.users userAddr with
  | none => .error .accountNotFound
  | some user =>
      match s.apps appAddr with
      | none => .error .accountNotFound
      | some app =>
          if user.role ≠ UserRole.Freelancer then
            .error (.program .Unauthorized)
          else if app.applicant ≠ user.wallet then
            .error (.program .Unauthorized)
          else if ¬ app.approved then
            .error (.program .ApplicationNotApproved)
          else
            .ok { s with
              apps := upd s.apps appAddr
                (some { app with
                  submission_link := submission_link,
                  narration := narration,
                  completed := true }) }

/-- Handler `approve_submission`: records the client review and pays
`job_post.amount` from the escrow PDA of the job to the supplied `freelancer`
account.  In the source the review is written before the CPI transfer; a
failing transfer aborts the whole transaction, so the failure branch
returns no state.  As in the `ApproveSubmission` accounts struct of the source,
nothing requires `application.job_post = jobAddr`, nothing requires
`freelancer = application.applicant`, the `user_account` at `userAddr` is
caller-chosen, and the handler body never reads the signer. -/
def approve_submission (signer userAddr jobAddr appAddr freelancer : Pubkey)
    (client_review : String) (s : State) : Except Err State :=
  match s.users userAddr with
  | none => .error .accountNotFound
  | some user =>
      match s.jobs jobAddr with
      | none => .error .accountNotFound
      | some job =>
          match s.apps appAddr with
          | none => .error .accountNotFound
          | some app =>
              if job.client ≠ user.wallet then
                .error (.program .Unauthorized)
              else if user.role ≠ UserRole.Client then
                .error (.program .Unauthorized)
              else if ¬ app.completed then
                .error (.program .WorkNotCompleted)
              else if job.amount ≤ s.escrow jobAddr then
                .ok { s with
                  apps := upd s.apps appAddr
                    (some { app with client_review := client_review }),
                  escrow := upd s.escrow jobAddr (s.escrow jobAddr - job.amount),
                  balances := upd s.balances freelancer
                    (s.balances freelancer + job.amount) }
              else .error .transferFailed

/-- One instruction invocation, with every account address and argument the
caller supplies. -/
inductive Op
  | registerUser (signer : Pubkey) (name : String) (role : UserRole)
  | initializeJobPost (signer userAddr jobAddr : Pubkey) (title description : String)
      (amount : Nat) (start_date end_date now : Int)
  | applyToJob (signer userAddr jobAddr appAddr : Pubkey) (resume_link : String)
      (expected_end_date : Int)
  | approveApplication (signer userAddr jobAddr appAddr : Pubkey)
  | submitWork (signer userAddr appAddr : Pubkey) (submission_link narration : String)
  | approveSubmission (signer userAddr jobAddr appAddr freelancer : Pubkey)
      (client_review : String)

def runOp : Op → State → Except Err State
  | .registerUser signer name role => register_user signer name role
  | .initializeJobPost signer userAddr jobAddr title description amount sd ed now =>
      initialize_job_post signer userAddr jobAddr title description amount sd ed now
  | .applyToJob signer userAddr jobAddr appAddr rl eed =>
      apply_to_job signer userAddr jobAddr appAddr rl eed
  | .approveApplication signer userAddr jobAddr appAddr =>
      approve_application signer userAddr jobAddr appAddr
  | .submitWork signer userAddr appAddr sl nar =>
      submit_work signer userAddr appAddr sl nar
  | .approveSubmission signer userAddr jobAddr appAddr freelancer rev =>
      approve_submission signer userAddr jobAddr appAddr freelancer rev

/-- Transaction semantics: a failed instruction leaves the chain state
unchanged. -/
def execOp (op : Op) (s : State) : State :=
  match runOp op s with
  | .ok s' => s'
  | .error _ => s

def exec (s : State) : List Op → State
  | [] => s
  | op :: tr => exec (execOp op s) tr

/-- Genesis state: no program accounts exist, escrows are empty, every
wallet starts with 1000 spendable lamports. -/
def initState : State :=
  { users := fun _ => none
    jobs := fun _ => none
    apps := fun _ => none
    escrow := fun _ => 0
    balances := fun _ => 1000 }

/-- Does `op` attempt the escrow payout of the job at address `a`? -/
def payoutOn (op : Op) (a : Pubkey) : Bool :=
  match op with
  | .approveSubmission _ _ jobAddr _ _ _ => jobAddr == a
  | _ => false

def opSucceeds (op : Op) (s : State) : Bool :=
  match runOp op s with
  | .ok _ => true
  | .error _ => false

/-- Did some successful `approve_submission` targeting the job at `a` occur
while running the trace from `s`? -/
def paidDuring (s : State) : List Op → Pubkey → Bool
  | [], _ => false
  | op :: tr, a =>
      (payoutOn op a && opSucceeds op s) || paidDuring (execOp op s) tr a

/-- The failures each instruction can surface, reading its handler and its
accounts struct top to bottom. -/
def opErrors : Op → List Err
  | .registerUser _ _ _ => [.accountAlreadyInUse]
  | .initializeJobPost _ _ _ _ _ _ _ _ _ =>
      [.accountNotFound, .accountAlreadyInUse, .program .Unauthorized,
       .program .InvalidDates, .transferFailed]
  | .applyToJob _ _ _ _ _ _ =>
      [.accountNotFound, .accountAlreadyInUse, .program .Unauthorized,
       .program .InvalidDates]
  | .approveApplication _ _ _ _ =>
      [.accountNotFound, .program .Unauthorized, .program .JobAlreadyFilled]
  | .submitWork _ _ _ _ _ =>
      [.accountNotFound, .program .Unauthorized, .program .ApplicationNotApproved]
  | .approveSubmission _ _ _ _ _ _ =>
      [.accountNotFound, .program .Unauthorized, .program .WorkNotCompleted,
       .transferFailed]

/-- A trace exhibiting the missing job binding of `approve_application`:
client 1 posts two jobs (addresses 10 and 11); freelancers 2 and 3 both
apply to job 11 (applications 20 and 21); the client approves application
20 while passing job account 10, then approves application 21 against job
account 11. -/
def opsTwoJobs : List Op :=
  [ .registerUser 1 "c" .Client
  , .registerUser 2 "f1" .Freelancer
  , .registerUser 3 "f2" .Freelancer
  , .initializeJobPost 1 1 10 "jobA" "d" 5 0 0 0
  , .initializeJobPost 1 1 11 "jobB" "d" 5 0 0 0
  , .applyToJob 2 2 11 20 "r1" 0
  , .applyToJob 3 3 11 21 "r2" 0
  , .approveApplication 1 1 10 20
  , .approveApplication 1 1 11 21 ]

/-- The nominal life cycle: client 1 posts job 10 with amount 5, freelancer
2 applies (application 20), is approved, submits, and the client approves
the submission, paying the escrow out to wallet 2. -/
def opsFlow : List Op :=
  [ .registerUser 1 "c" .Client
  , .registerUser 2 "f" .Freelancer
  , .initializeJobPost 1 1 10 "t" "d" 5 0 0 0
  , .applyToJob 2 2 10 20 "r" 0
  , .approveApplication 1 1 10 20
  , .submitWork 2 2 20 "l1" "n1"
  , .approveSubmission 1 1 10 20 2 "rev" ]

/-- A trace reaching a payout on an unfilled job: client 1 posts jobs 10
and 11; freelancer 2 applies to job 11 (application 20); the client
approves application 20 against job 10 (filling job 10, leaving job 11
unfilled); the freelancer submits; the client then calls
`approve_submission` with job 11 and application 20, which succeeds and
empties the escrow of job 11 while job 11 is still unfilled. -/
def opsUnfilledPayout : List Op :=
  [ .registerUser 1 "c" .Client
  , .registerUser 2 "f" .Freelancer
  , .initializeJobPost 1 1 10 "t" "d" 5 0 0 0
  , .initializeJobPost 1 1 11 "t2" "d" 5 0 0 0
  , .applyToJob 2 2 11 20 "r" 0
  , .approveApplication 1 1 10 20
  , .submitWork 2 2 20 "l1" "n1"
  , .approveSubmission 1 1 11 20 2 "rev" ]

/-- The state reached by `opsFlow`: job 10 paid out, escrow empty. -/
def sPaid : State := exec initState opsFlow

/-- A state whose escrow for job 10 holds 6 lamports while the job records
`amount = 5`. -/
def sOverfunded : State :=
  { users := upd (upd (fun _ => none) 1 (some ⟨1, "c", .Client⟩)) 2
      (some ⟨2, "f", .Freelancer⟩)
    jobs := upd (fun _ => none) 10 (some ⟨1, "t", 5, "d", true, 0, 0, 0⟩)
    apps := upd (fun _ => none) 20 (some ⟨2, 10, "r", true, true, "l", "n", "", 0⟩)
    escrow := upd (fun _ => 0) 10 6
    balances := fun _ => 0 }
/-- The client and one freelancer registered, nothing else. -/
def sClient : State :=
  exec initState [.registerUser 1 "c" .Client, .registerUser 2 "f" .Freelancer]

def opInit : Op := .initializeJobPost 1 1 10 "t" "d" 5 0 0 0

/-- The state `sClient` after client 1 posts job 10 with amount 5. -/
def sJob : State := execOp opInit sClient

/-- The state `sJob` after freelancer 2 applies (application 20). -/
def sApplied : State := execOp (.applyToJob 2 2 10 20 "r" 0) sJob

/-- The state `sApplied` after the client approves application 20. -/
def sApproved : State := execOp (.approveApplication 1 1 10 20) sApplied

/-- The state `sApproved` after freelancer 2 submits work. -/
def sSubmitted : State := execOp (.submitWork 2 2 20 "l1" "n1") sApproved


theorem upd_same {α : Type} (f : Pubkey → α) (k : Pubkey) (v : α) :
    upd f k v k = v := by
  simp [upd]

theorem upd_other {α : Type} (f : Pubkey → α) (k : Pubkey) (v : α) (x : Pubkey)
    (h : x ≠ k) : upd f k v x = f x := by
  simp [upd, h]

theorem step_frame (op : Op) (s s' : State) (hok : runOp op s = .ok s') (a : Pubkey) :
    (∀ j, s.jobs a = some j →
      (s'.jobs a = some j ∨
        (j.is_filled = false ∧ s'.jobs a = some { j with is_filled := true })) ∧
      (payoutOn op a = false → s'.escrow a = s.escrow a) ∧
      (payoutOn op a = true → j.amount ≤ s.escrow a ∧
        s'.escrow a = s.escrow a - j.amount))
    ∧ (s.jobs a = none → s'.jobs a = none → s'.escrow a = s.escrow a)
    ∧ (∀ j', s.jobs a = none → s'.jobs a = some j' →
        s'.escrow a = s.escrow a + j'.amount) := by
  cases op with
  | registerUser signer name role =>
    simp only [runOp, register_user] at hok
    cases hu : s.users signer with
    | some _ =>
        simp only [hu] at hok
        exact Except.noConfusion hok
    | none =>
        simp only [hu] at hok
        injection hok with hok
        subst hok
        exact ⟨fun j hj => ⟨Or.inl hj, fun _ => rfl, by simp [payoutOn]⟩,
          fun _ _ => rfl, fun j' hn hsome => by simp_all⟩
  | initializeJobPost signer userAddr jobAddr title description amount sd ed now =>
    simp only [runOp, initialize_job_post] at hok
    cases hu : s.users userAddr with
    | none => simp only [hu] at hok; exact Except.noConfusion hok
    | some user =>
      simp only [hu] at hok
      cases hfresh : s.jobs jobAddr with
      | some _ => simp only [hfresh] at hok; exact Except.noConfusion hok
      | none =>
        simp only [hfresh] at hok
        split at hok
        · exact Except.noConfusion hok
        split at hok
        · exact Except.noConfusion hok
        split at hok
        · exact Except.noConfusion hok
        split at hok
        case isFalse => exact Except.noConfusion hok
        injection hok with hok
        subst hok
        by_cases hcase : a = jobAddr
        · subst hcase
          refine ⟨fun j hj => absurd hj (by simp [hfresh]),
            fun _ h => by dsimp only at h; rw [upd_same] at h; exact Option.noConfusion h,
            fun j' hn hsome => ?_⟩
          dsimp only at hsome ⊢
          rw [upd_same] at hsome
          injection hsome with hsome
          rw [upd_same, ← hsome]
        · refine ⟨fun j hj => ⟨Or.inl (by simpa [upd, hcase] using hj),
            fun _ => by simp [upd, hcase], by simp [payoutOn]⟩,
            fun _ _ => by simp [upd, hcase], fun j' hn hsome => ?_⟩
          simp only [upd, if_neg hcase] at hsome
          rw [hn] at hsome
          exact Option.noConfusion hsome
  | applyToJob signer userAddr jobAddr appAddr rl eed =>
    simp only [runOp, apply_to_job] at hok
    cases hu : s.users userAddr with
    | none => simp only [hu] at hok; exact Except.noConfusion hok
    | some user =>
      simp only [hu] at hok
      cases hj : s.jobs jobAddr with
      | none => simp only [hj] at hok; exact Except.noConfusion hok
      | some job =>
        simp only [hj] at hok
        cases ha : s.apps appAddr with
        | some _ => simp only [ha] at hok; exact Except.noConfusion hok
        | none =>
          simp only [ha] at hok
          split at hok
          · exact Except.noConfusion hok
          split at hok
          · exact Except.noConfusion hok
          injection hok with hok
          subst hok
          exact ⟨fun j hja => ⟨Or.inl hja, fun _ => rfl, by simp [payoutOn]⟩,
            fun _ _ => rfl, fun j' hn hsome => by simp_all⟩
  | approveApplication signer userAddr jobAddr appAddr =>
    simp only [runOp, approve_application] at hok
    cases hu : s.users userAddr with
    | none => simp only [hu] at hok; exact Except.noConfusion hok
    | some user =>
      simp only [hu] at hok
      cases hj : s.jobs jobAddr with
      | none => simp only [hj] at hok; exact Except.noConfusion hok
      | some job =>
        simp only [hj] at hok
        cases ha : s.apps appAddr with
        | none => simp only [ha] at hok; exact Except.noConfusion hok
        | some app =>
          simp only [ha] at hok
          split at hok
          · exact Except.noConfusion hok
          split at hok
          · exact Except.noConfusion hok
          split at hok
          · exact Except.noConfusion hok
          rename_i hfilled
          injection hok with hok
          subst hok
          by_cases hcase : a = jobAddr
          · subst hcase
            refine ⟨fun j hja => ?_, fun hn _ => by simp [hn] at hj,
              fun j' hn _ => by simp [hn] at hj⟩
            rw [hj] at hja
            injection hja with hja
            subst hja
            exact ⟨Or.inr ⟨by simpa using hfilled, by simp [upd]⟩,
              fun _ => rfl, by simp [payoutOn]⟩
          · refine ⟨fun j hja => ⟨Or.inl (by simpa [upd, hcase] using hja),
              fun _ => rfl, by simp [payoutOn]⟩, fun _ _ => rfl,
              fun j' hn hsome => ?_⟩
            simp only [upd, if_neg hcase] at hsome
            rw [hn] at hsome
            exact Option.noConfusion hsome
  | submitWork signer userAddr appAddr sl nar =>
    simp only [runOp, submit_work] at hok
    cases hu : s.users userAddr with
    | none => simp only [hu] at hok; exact Except.noConfusion hok
    | some user =>
      simp only [hu] at hok
      cases ha : s.apps appAddr with
      | none => simp only [ha] at hok; exact Except.noConfusion hok
      | some app =>
        simp only [ha] at hok
        split at hok
        · exact Except.noConfusion hok
        split at hok
        · exact Except.noConfusion hok
        split at hok
        · exact Except.noConfusion hok
        injection hok with hok
        subst hok
        exact ⟨fun j hja => ⟨Or.inl hja, fun _ => rfl, by simp [payoutOn]⟩,
          fun _ _ => rfl, fun j' hn hsome => by simp_all⟩
  | approveSubmission signer userAddr jobAddr appAddr freelancer rev =>
    simp only [runOp, approve_submission] at hok
    cases hu : s.users userAddr with
    | none => simp only [hu] at hok; exact Except.noConfusion hok
    | some user =>
      simp only [hu] at hok
      cases hj : s.jobs jobAddr with
      | none => simp only [hj] at hok; exact Except.noConfusion hok
      | some job =>
        simp only [hj] at hok
        cases ha : s.apps appAddr with
        | none => simp only [ha] at hok; exact Except.noConfusion hok
        | some app =>
          simp only [ha] at hok
          split at hok
          · exact Except.noConfusion hok
          split at hok
          · exact Except.noConfusion hok
          split at hok
          · exact Except.noConfusion hok
          split at hok
          case isFalse => exact Except.noConfusion hok
          rename_i hbal
          injection hok with hok
          subst hok
          by_cases hcase : a = jobAddr
          · subst hcase
            refine ⟨fun j hja => ?_, fun hn _ => by simp [hn] at hj,
              fun j' hn _ => by simp [hn] at hj⟩
            rw [hj] at hja
            injection hja with hja
            subst hja
            refine ⟨Or.inl hj, fun hpay => by simp [payoutOn] at hpay,
              fun _ => ⟨hbal, by dsimp only; rw [upd_same]⟩⟩
          · refine ⟨fun j hja => ⟨Or.inl hja, fun _ => by simp [upd, hcase],
              fun hpay => ?_⟩, fun _ _ => by simp [upd, hcase],
              fun j' hn hsome => by rw [hn] at hsome; exact Option.noConfusion hsome⟩
            simp only [payoutOn, beq_iff_eq] at hpay
            exact absurd hpay.symm hcase

theorem execOp_of_error (op : Op) (s : State) (e : Err)
    (herr : runOp op s = .error e) : execOp op s = s := by
  simp [execOp, herr]

theorem execOp_of_ok (op : Op) (s s' : State)
    (hok : runOp op s = .ok s') : execOp op s = s' := by
  simp [execOp, hok]

theorem inv0_step (op : Op) (s : State)
    (h : ∀ a, s.jobs a = none → s.escrow a = 0) :
    ∀ a, (execOp op s).jobs a = none → (execOp op s).escrow a = 0 := by
  intro a hnone
  cases hrun : runOp op s with
  | error e => rw [execOp_of_error op s e hrun] at hnone ⊢; exact h a hnone
  | ok s' =>
      rw [execOp_of_ok op s s' hrun] at hnone ⊢
      rcases hsj : s.jobs a with _ | j
      · rw [(step_frame op s s' hrun a).2.1 hsj hnone]
        exact h a hsj
      · rcases ((step_frame op s s' hrun a).1 j hsj).1 with hc | ⟨_, hc⟩ <;>
          rw [hc] at hnone <;> exact Option.noConfusion hnone

theorem inv0_exec (tr : List Op) (s : State)
    (h : ∀ a, s.jobs a = none → s.escrow a = 0) :
    ∀ a, (exec s tr).jobs a = none → (exec s tr).escrow a = 0 := by
  induction tr generalizing s with
  | nil => exact h
  | cons op tr ih => exact ih (execOp op s) (inv0_step op s h)

theorem escrow_zero_forever (tr : List Op) (s : State) (a : Pubkey)
    (hjob : s.jobs a ≠ none) (hz : s.escrow a = 0) :
    (exec s tr).escrow a = 0 := by
  induction tr generalizing s with
  | nil => exact hz
  | cons op tr ih =>
      rcases hsj : s.jobs a with _ | j
      · exact absurd hsj hjob
      cases hrun : runOp op s with
      | error e =>
          simp only [exec, execOp_of_error op s e hrun]
          exact ih s hjob hz
      | ok s' =>
          simp only [exec, execOp_of_ok op s s' hrun]
          have hf := (step_frame op s s' hrun a).1 j hsj
          have hjob' : s'.jobs a ≠ none := by
            rcases hf.1 with hc | ⟨_, hc⟩ <;> rw [hc] <;> exact fun h => Option.noConfusion h
          have hz' : s'.escrow a = 0 := by
            cases hpay : payoutOn op a with
            | false => rw [hf.2.1 hpay, hz]
            | true => rw [(hf.2.2 hpay).2, hz]; simp
          exact ih s' hjob' hz'

theorem escrow_amount_until_paid (tr : List Op) (s : State) (a : Pubkey)
    (j : JobPost) (hj : s.jobs a = some j) (hbal : s.escrow a = j.amount) :
    (exec s tr).escrow a = (if paidDuring s tr a then 0 else j.amount) := by
  induction tr generalizing s j with
  | nil => simpa [paidDuring]
  | cons op tr ih =>
      cases hrun : runOp op s with
      | error e =>
          have hsucc : opSucceeds op s = false := by simp [opSucceeds, hrun]
          simp only [exec, paidDuring, execOp_of_error op s e hrun, hsucc,
            Bool.and_false, Bool.false_or]
          exact ih s j hj hbal
      | ok s' =>
          have hsucc : opSucceeds op s = true := by simp [opSucceeds, hrun]
          simp only [exec, paidDuring, execOp_of_ok op s s' hrun, hsucc,
            Bool.and_true]
          have hf := (step_frame op s s' hrun a).1 j hj
          cases hpay : payoutOn op a with
          | false =>
              simp only [Bool.false_or]
              have hz' : s'.escrow a = j.amount := by rw [hf.2.1 hpay, hbal]
              rcases hf.1 with hc | ⟨_, hc⟩
              · exact ih s' j hc hz'
              · have := ih s' { j with is_filled := true } hc (by simpa using hz')
                simpa using this
          | true =>
              simp only [Bool.true_or, if_true]
              have hz' : s'.escrow a = 0 := by
                rw [(hf.2.2 hpay).2, hbal]
                simp
              have hjob' : s'.jobs a ≠ none := by
                rcases hf.1 with hc | ⟨_, hc⟩ <;> rw [hc] <;>
                  exact fun h => Option.noConfusion h
              exact escrow_zero_forever tr s' a hjob' hz'

/-- C2: once `initialize_job_post` succeeds and creates the job at `a`, the
escrow of that job holds exactly `job.amount`; along any continuation of the
trace it still holds `job.amount` until an `approve_submission` on that job
succeeds, and holds zero from that point on.  No other operation moves funds
into or out of the escrow. -/
theorem escrow_balance_lifecycle (pre : List Op) (op : Op) (s' : State)
    (a : Pubkey) (j : JobPost) (post : List Op)
    (hok : runOp op (exec initState pre) = .ok s')
    (hnew : (exec initState pre).jobs a = none)
    (hcreated : s'.jobs a = some j) :
    s'.escrow a = j.amount ∧
    (exec s' post).escrow a = (if paidDuring s' post a then 0 else j.amount) := by
  have hz : (exec initState pre).escrow a = 0 :=
    inv0_exec pre initState (fun _ _ => rfl) a hnew
  have hbal : s'.escrow a = j.amount := by
    have := (step_frame op (exec initState pre) s' hok a).2.2 j hnew hcreated
    rw [this, hz, Nat.zero_add]
  exact ⟨hbal, escrow_amount_until_paid post s' a j hcreated hbal⟩

/-- C4: the claim says `approve_application` succeeds exactly when the
caller identity equals the job client with role Client.  The
`ApproveApplication` accounts struct leaves `user_account` caller-chosen
and the handler never reads the signer, so the unregistered signer 3
approves application 20 on the job of client 1 simply by supplying the
user account of client 1: the call succeeds, approving the application and
filling the job, although the caller identity is neither the client nor
even registered. -/
theorem approve_application_forged_caller :
    sApplied.users 3 = none ∧
    (sApplied.jobs 10).map JobPost.client = some 1 ∧
    (3 : Pubkey) ≠ 1 ∧
    ∃ s', runOp (.approveApplication 3 1 10 20) sApplied = .ok s' ∧
      (s'.apps 20).map Application.approved = some true ∧
      (s'.jobs 10).map JobPost.is_filled = some true := by
  exact ⟨by decide, by decide, by decide, ⟨_, by rfl, by decide, by decide⟩⟩

/-- C5: the claim says `submit_work` succeeds only when the caller identity
equals `application.applicant`.  The `SubmitWork` accounts struct leaves
`user_account` caller-chosen and the handler compares
`application.applicant` against that account, never against the signer, so
the unregistered signer 9 submits work on application 20 of applicant 2 by
supplying the user account of wallet 2: the call succeeds and overwrites
the submission fields. -/
theorem submit_work_forged_caller :
    sApproved.users 9 = none ∧
    (sApproved.apps 20).map Application.applicant = some 2 ∧
    (9 : Pubkey) ≠ 2 ∧
    ∃ s', runOp (.submitWork 9 2 20 "lx" "nx") sApproved = .ok s' ∧
      (s'.apps 20).map Application.submission_link = some "lx" ∧
      (s'.apps 20).map Application.completed = some true := by
  exact ⟨by decide, by decide, by decide, ⟨_, by rfl, by decide, by decide⟩⟩

/-- C6 (amended): `approve_submission` is not terminal.  What does hold:
a filled job record is never mutated by any later operation, and with its
escrow empty a repeated `approve_submission` fails whenever
`job.amount > 0`.  But the handler never checks `is_filled` and the
application is not bound to the job, so a payout can even occur on an
unfilled job (trace `opsUnfilledPayout` pays job 11 while it is unfilled),
after which `approve_application` still mutates that job record; and the
application always remains mutable by `submit_work` (see the
counterexample). -/
theorem filled_job_frozen_and_payout_oneshot :
    (∀ (s : State) (a : Pubkey) (j : JobPost),
      s.jobs a = some j → j.is_filled = true →
      (∀ op, (execOp op s).jobs a = some j) ∧
      (s.escrow a = 0 → 0 < j.amount →
        ∀ (signer userAddr appAddr freelancer : Pubkey) (rev : String),
          ∃ e, runOp (.approveSubmission signer userAddr a appAddr freelancer rev) s =
            .error e))
    ∧ (paidDuring initState opsUnfilledPayout 11 = true ∧
       ((exec initState opsUnfilledPayout).jobs 11).map JobPost.is_filled =
         some false ∧
       ∃ s', runOp (.approveApplication 1 1 11 20)
           (exec initState opsUnfilledPayout) = .ok s' ∧
         s'.jobs 11 ≠ (exec initState opsUnfilledPayout).jobs 11) := by
  constructor
  · intro s a j hj hfilled
    constructor
    · intro op
      cases hrun : runOp op s with
      | error e => rw [execOp_of_error op s e hrun]; exact hj
      | ok s' =>
          rw [execOp_of_ok op s s' hrun]
          rcases ((step_frame op s s' hrun a).1 j hj).1 with hc | ⟨hc, _⟩
          · exact hc
          · rw [hfilled] at hc; exact Bool.noConfusion hc
    · intro hz hpos signer userAddr appAddr freelancer rev
      simp only [runOp, approve_submission, hj]
      cases hu : s.users userAddr with
      | none => exact ⟨_, rfl⟩
      | some user =>
          cases ha : s.apps appAddr with
          | none => exact ⟨_, rfl⟩
          | some app =>
              dsimp only
              by_cases h1 : j.client ≠ user.wallet
              · rw [if_pos h1]; exact ⟨_, rfl⟩
              rw [if_neg h1]
              by_cases h2 : user.role ≠ UserRole.Client
              · rw [if_pos h2]; exact ⟨_, rfl⟩
              rw [if_neg h2]
              by_cases h3 : ¬ app.completed = true
              · rw [if_pos h3]; exact ⟨_, rfl⟩
              rw [if_neg h3]
              rw [if_neg (by rw [hz]; omega)]
              exact ⟨_, rfl⟩
  · exact ⟨by decide, by decide, ⟨_, by rfl, by decide⟩⟩

/-- C7: for a registered client and a fresh job address,
`initialize_job_post` fails with `InvalidDates` whenever
`start_date ≤ end_date ∧ start_date ≥ now` does not hold, and the failure
leaves the whole state unchanged: no job record, no escrow debit. -/
theorem initialize_job_post_invalid_dates (s : State) (signer userAddr jobAddr : Pubkey)
    (title description : String) (amount : Nat) (sd ed now : Int)
    (u : UserAccount) (hu : s.users userAddr = some u) (hrole : u.role = .Client)
    (hfresh : s.jobs jobAddr = none) (hbad : ¬ (sd ≤ ed ∧ now ≤ sd)) :
    runOp (.initializeJobPost signer userAddr jobAddr title description amount sd ed now) s =
      .error (.program .InvalidDates)
    ∧ execOp (.initializeJobPost signer userAddr jobAddr title description amount sd ed now) s = s := by
  have herr : runOp (.initializeJobPost signer userAddr jobAddr title description amount sd ed now) s =
      .error (.program .InvalidDates) := by
    simp only [runOp, initialize_job_post, hu, hfresh]
    rw [if_neg (by simp [hrole])]
    by_cases h1 : sd ≤ ed
    · rw [if_neg (by simpa using h1)]
      rw [if_pos (by simp; omega)]
    · rw [if_pos (by simpa using h1)]
  exact ⟨herr, by simp [execOp, herr]⟩

/-- C8: the claim says a non-client identity can never create a job post
and a non-freelancer identity can never apply.  The `InitializeJobPost`
and `ApplyToJob` accounts structs leave `user_account` caller-chosen with
no binding to the signer, so signer 2 — registered with role Freelancer —
creates job 12 by supplying the user account of client 1 (the job is even
recorded with client 1 and funded by signer 2), and signer 1 — registered
with role Client — creates application 22 on job 10 by supplying the user
account of freelancer 2. -/
theorem role_gate_bypass :
    (sJob.users 2).map UserAccount.role = some .Freelancer ∧
    (∃ s', runOp (.initializeJobPost 2 1 12 "t3" "d" 5 0 0 0) sJob = .ok s' ∧
      (s'.jobs 12).map JobPost.client = some 1) ∧
    (sJob.users 1).map UserAccount.role = some .Client ∧
    (∃ s', runOp (.applyToJob 1 2 10 22 "r" 0) sJob = .ok s' ∧
      (s'.apps 22).map Application.applicant = some 2) := by
  exact ⟨by decide, ⟨_, by rfl, by decide⟩, by decide, ⟨_, by rfl, by decide⟩⟩

/-- C9: every operation checks before it mutates: whenever an instruction
returns an error, the persisted state is left byte-for-byte unchanged, and
the error is one of the named failures of that instruction. -/
theorem guard_then_mutate (op : Op) (s : State) (e : Err)
    (herr : runOp op s = .error e) :
    execOp op s = s ∧ e ∈ opErrors op := by
  refine ⟨by simp [execOp, herr], ?_⟩
  cases op <;>
    simp only [runOp, register_user, initialize_job_post, apply_to_job,
      approve_application, submit_work, approve_submission] at herr <;>
    (repeat' split at herr) <;>
    simp_all [opErrors]

/-- C10: when its checks pass, `approve_submission` transfers `job.amount`
from the escrow to whatever `freelancer` account the caller supplied: the
payout goes to `freelancer` for every choice of `freelancer`, with no
hypothesis relating it to `application.applicant`. -/
theorem approve_submission_pays_supplied_account (s : State)
    (signer userAddr jobAddr appAddr : Pubkey) (rev : String)
    (u : UserAccount) (j : JobPost) (a : Application)
    (hu : s.users userAddr = some u) (hj : s.jobs jobAddr = some j)
    (ha : s.apps appAddr = some a)
    (hclient : j.client = u.wallet) (hrole : u.role = .Client)
    (hdone : a.completed = true) (hbal : j.amount ≤ s.escrow jobAddr) :
    ∀ freelancer : Pubkey,
      runOp (.approveSubmission signer userAddr jobAddr appAddr freelancer rev) s =
        .ok { s with
          apps := upd s.apps appAddr (some { a with client_review := rev }),
          escrow := upd s.escrow jobAddr (s.escrow jobAddr - j.amount),
          balances := upd s.balances freelancer
            (s.balances freelancer + j.amount) } := by
  intro freelancer
  simp only [runOp, approve_submission, hu, hj, ha]
  rw [if_neg (by simp [hclient]), if_neg (by simp [hrole]),
      if_neg (by simp [hdone]), if_pos hbal]

/-- C1: the source never checks `application.job_post = job_post.key()` in
`approve_application`, so one client with two jobs can approve two
applications that both reference job 11: after `opsTwoJobs`, applications
20 and 21 are distinct, both reference job 11, and both have
`approved = true`, violating the at-most-one-approval-per-job property. -/
theorem approve_application_double_approval :
    ((exec initState opsTwoJobs).apps 20).map
        (fun a => (a.approved, a.job_post)) = some (true, 11) ∧
    ((exec initState opsTwoJobs).apps 21).map
        (fun a => (a.approved, a.job_post)) = some (true, 11) ∧
    (20 : Pubkey) ≠ 21 := by
  refine ⟨by decide, by decide, by decide⟩

/-- C3 (counterexample): the program defines no `EscrowMismatch` error and
`approve_submission` never compares the escrow balance to `job.amount`.
After the nominal flow the escrow of job 10 is 0 while `amount = 5`, and a
repeated `approve_submission` fails with the CPI transfer failure, not any
program-defined mismatch error; in `sOverfunded` the escrow holds 6 ≠ 5 and
`approve_submission` succeeds outright. -/
theorem approve_submission_no_escrow_mismatch :
    (sPaid.jobs 10).map JobPost.amount = some 5 ∧
    sPaid.escrow 10 = 0 ∧
    runOp (.approveSubmission 1 1 10 20 2 "again") sPaid =
      .error .transferFailed ∧
    sOverfunded.escrow 10 = 6 ∧
    (sOverfunded.jobs 10).map JobPost.amount = some 5 ∧
    ∃ s', runOp (.approveSubmission 1 1 10 20 2 "rev") sOverfunded = .ok s' := by
  exact ⟨by decide, by decide, by rfl, by decide, by decide, ⟨_, by rfl⟩⟩

/-- C3 (amended): when the escrow balance is below `job.amount` and the
authorization and completion checks pass, `approve_submission` fails with
the system transfer failure — there is no program-defined EscrowMismatch
error — and the state is left unchanged. -/
theorem approve_submission_escrow_shortfall (s : State)
    (signer userAddr jobAddr appAddr freelancer : Pubkey) (rev : String)
    (u : UserAccount) (j : JobPost) (a : Application)
    (hu : s.users userAddr = some u) (hj : s.jobs jobAddr = some j)
    (ha : s.apps appAddr = some a)
    (hclient : j.client = u.wallet) (hrole : u.role = .Client)
    (hdone : a.completed = true)
    (hlt : s.escrow jobAddr < j.amount) :
    runOp (.approveSubmission signer userAddr jobAddr appAddr freelancer rev) s =
      .error .transferFailed ∧
    execOp (.approveSubmission signer userAddr jobAddr appAddr freelancer rev) s = s := by
  have herr : runOp (.approveSubmission signer userAddr jobAddr appAddr freelancer rev) s =
      .error .transferFailed := by
    simp only [runOp, approve_submission, hu, hj, ha]
    rw [if_neg (by simp [hclient]), if_neg (by simp [hrole]),
      if_neg (by simp [hdone]), if_neg (by omega)]
  exact ⟨herr, execOp_of_error _ _ _ herr⟩

/-- C3 (witness for the amended theorem): the post-payout state of the
nominal flow has escrow 0 < amount 5, and the repeated approval fails with
the transfer failure, changing nothing. -/
theorem approve_submission_escrow_shortfall_witness :
    sPaid.escrow 10 < 5 ∧
    runOp (.approveSubmission 1 1 10 20 2 "x") sPaid = .error .transferFailed ∧
    execOp (.approveSubmission 1 1 10 20 2 "x") sPaid = sPaid := by
  refine ⟨by decide, approve_submission_escrow_shortfall sPaid 1 1 10 20 2 "x"
    ⟨1, "c", .Client⟩ ⟨1, "t", 5, "d", true, 0, 0, 0⟩
    ⟨2, 10, "r", true, true, "l1", "n1", "rev", 0⟩
    (by decide) (by decide) (by decide) rfl rfl rfl (by decide)⟩

/-- C6 (counterexample): `approve_submission` is not terminal for the
application: after the nominal flow pays job 10 out (a successful
`approve_submission` occurs in `opsFlow`), freelancer 2 can still run
`submit_work` on application 20, and it succeeds and overwrites
`submission_link` from "l1" to "l2". -/
theorem submit_work_mutates_after_payout :
    paidDuring initState opsFlow 10 = true ∧
    (sPaid.apps 20).map Application.submission_link = some "l1" ∧
    ∃ s', runOp (.submitWork 2 2 20 "l2" "n2") sPaid = .ok s' ∧
      (s'.apps 20).map Application.submission_link = some "l2" := by
  exact ⟨by decide, by decide, ⟨_, by rfl, by decide⟩⟩

/-- C6 (witness for the amended theorem): at the paid-out state, the filled
job record 10 survives a further `submit_work` unchanged, and a repeated
`approve_submission` on job 10 fails. -/
theorem filled_job_frozen_and_payout_oneshot_witness :
    sPaid.jobs 10 = some ⟨1, "t", 5, "d", true, 0, 0, 0⟩ ∧
    (execOp (.submitWork 2 2 20 "l2" "n2") sPaid).jobs 10 =
      some ⟨1, "t", 5, "d", true, 0, 0, 0⟩ ∧
    ∃ e, runOp (.approveSubmission 1 1 10 20 2 "x") sPaid = .error e := by
  have h := filled_job_frozen_and_payout_oneshot.1 sPaid 10
    ⟨1, "t", 5, "d", true, 0, 0, 0⟩ (by decide) rfl
  exact ⟨by decide, h.1 _, h.2 (by decide) (by decide) 1 1 20 2 "x"⟩

/-- C2 (witness): concretely, posting job 10 from `sClient` deposits 5 into
its escrow, and after a further trace in which no payout on job 10 succeeds
the escrow still holds 5. -/
theorem escrow_balance_lifecycle_witness :
    runOp opInit (exec initState
      [.registerUser 1 "c" .Client, .registerUser 2 "f" .Freelancer]) = .ok sJob ∧
    (exec initState
      [.registerUser 1 "c" .Client, .registerUser 2 "f" .Freelancer]).jobs 10 = none ∧
    sJob.jobs 10 = some ⟨1, "t", 5, "d", false, 0, 0, 0⟩ ∧
    (sJob.escrow 10 = 5 ∧
      (exec sJob [.applyToJob 2 2 10 20 "r" 0]).escrow 10 =
        if paidDuring sJob [.applyToJob 2 2 10 20 "r" 0] 10 then 0 else 5) := by
  refine ⟨by rfl, by rfl, by rfl, escrow_balance_lifecycle
    [.registerUser 1 "c" .Client, .registerUser 2 "f" .Freelancer] opInit sJob 10
    ⟨1, "t", 5, "d", false, 0, 0, 0⟩ [.applyToJob 2 2 10 20 "r" 0]
    (by rfl) (by rfl) (by rfl)⟩

/-- C7 (witness): posting job 11 with end date before start date fails with
InvalidDates and changes nothing. -/
theorem initialize_job_post_invalid_dates_witness :
    runOp (.initializeJobPost 1 1 11 "t2" "d" 5 5 3 0) sClient =
      .error (.program .InvalidDates) ∧
    execOp (.initializeJobPost 1 1 11 "t2" "d" 5 5 3 0) sClient = sClient := by
  exact initialize_job_post_invalid_dates sClient 1 1 11 "t2" "d" 5 5 3 0
    ⟨1, "c", .Client⟩ (by decide) rfl (by decide) (by decide)

/-- C9 (witness): a duplicate registration fails with the account-in-use
error, the state is unchanged, and the error is among the named failures of
the operation. -/
theorem guard_then_mutate_witness :
    runOp (.registerUser 1 "x" .Client) sClient = .error .accountAlreadyInUse ∧
    (execOp (.registerUser 1 "x" .Client) sClient = sClient ∧
      Err.accountAlreadyInUse ∈ opErrors (.registerUser 1 "x" .Client)) := by
  exact ⟨by rfl, guard_then_mutate (.registerUser 1 "x" .Client) sClient
    .accountAlreadyInUse (by rfl)⟩

/-- C10 (witness): with work submitted on application 20 (applicant 2), the
client approves the submission naming wallet 7 as the freelancer account,
and the 5 lamports go to wallet 7, not to applicant 2. -/
theorem approve_submission_pays_supplied_account_witness :
    (sSubmitted.apps 20).map Application.applicant = some 2 ∧
    (7 : Pubkey) ≠ 2 ∧
    runOp (.approveSubmission 1 1 10 20 7 "rev") sSubmitted =
      .ok { sSubmitted with
        apps := upd sSubmitted.apps 20
          (some ⟨2, 10, "r", true, true, "l1", "n1", "rev", 0⟩),
        escrow := upd sSubmitted.escrow 10 (sSubmitted.escrow 10 - 5),
        balances := upd sSubmitted.balances 7 (sSubmitted.balances 7 + 5) } := by
  refine ⟨by decide, by decide,
    approve_submission_pays_supplied_account sSubmitted 1 1 10 20 "rev"
      ⟨1, "c", .Client⟩ ⟨1, "t", 5, "d", true, 0, 0, 0⟩
      ⟨2, 10, "r", true, true, "l1", "n1", "", 0⟩
      (by decide) (by decide) (by decide) rfl rfl rfl (by decide) 7⟩
